import Mathlib

/-!
# Call negotiation in `src/components/VideoChat.js`

A shallow embedding of the `VideoCall` component of the Medibridge client: its
relay message handler, `startCall`, `endCall`, `stopLocalStream`, the
`onicecandidate` callback and the call button, together with the promise
continuations that these functions register on the media transport.

Conventions of the embedding.

* The browser run-time is single threaded: each handler body runs to completion,
  and a promise continuation runs later, when the transport settles the request.
  A request that has been made and is not settled yet is an entry of
  `Session.pending`; the environment settles it with `settle`.
* The media transport (`RTCPeerConnection`) and the relay (`@stomp/stompjs`) are
  collaborators outside the repository.  Every call the component makes on them
  is recorded, in program order, in the trace of the handler.  The transport
  record keeps what a fulfilled request has established (descriptions,
  candidates, closure); whether a request is fulfilled or rejected is an input.
* `JSON.stringify` and `JSON.parse` are platform functions: the handlers take
  them as a parameter (`JsonCodec`).  A concrete model of the two functions is
  given in the namespace `JSON` for the codec round trip.
* `console.log` calls are not recorded; `console.warn` is.
-/

namespace VideoChat

/-! ## Values -/

/-- JSON values, the data that crosses the relay.  Numbers are the integers; floating
point numbers are not modelled. -/
inductive Json where
  | null
  | bool (b : Bool)
  | num (n : Int)
  | str (s : String)
  | arr (xs : List Json)
  | obj (members : List (String × Json))

/-- A JavaScript value that may be `undefined` (`none`). -/
abbrev JSValue := Option Json

/-- Property read `j.k` on a value other than `null`, for the keys the handler reads
(`type`, `senderId`, `data`): the member of an object, `undefined` on anything else. -/
def Json.prop : Json → String → JSValue
  | .obj members, k => members.lookup k
  | _, _ => none

/-- The truthiness of a value, as a condition tests it: `undefined`, `null`, `false`, `0`
and the empty string are falsy, anything else is truthy. -/
def truthy : JSValue → Bool
  | none => false
  | some .null => false
  | some (.bool b) => b
  | some (.num n) => n != 0
  | some (.str t) => t != ""
  | some (.arr _) => true
  | some (.obj _) => true

/-- The test `v === "text"`. -/
def isString (v : JSValue) (text : String) : Bool :=
  match v with
  | some (.str t) => t == text
  | _ => false

/-- The platform functions `JSON.stringify` and `JSON.parse`; `parse` returns `none`
where `JSON.parse` throws a `SyntaxError`. -/
structure JsonCodec where
  stringify : Json → String
  parse : String → Option Json

/-- The object literal `{ type, senderId, recipientId, data }` as `JSON.stringify`
sees it: a property whose value is `undefined` is left out. -/
def signal (type : String) (senderId recipientId data : JSValue) : Json :=
  .obj ([("type", some (Json.str type)), ("senderId", senderId),
         ("recipientId", recipientId), ("data", data)].filterMap
        fun kv => kv.2.map fun v => (kv.1, v))

/-! ## Browser objects -/

/-- A local media track (`MediaStreamTrack`). -/
structure MediaStreamTrack where
  kind : String
  enabled : Bool

/-- A media stream; `tracks` is `getTracks()`. -/
structure MediaStream where
  tracks : List MediaStreamTrack

/-- A `<video>` element, the media sink. -/
structure VideoElement where
  srcObject : Option MediaStream

/-- The media transport as far as the component drives it: what the fulfilled
requests have established.  `new RTCSessionDescription(x)` and
`new RTCIceCandidate(x)` are represented by their argument `x`. -/
structure RTCPeerConnection where
  closed : Bool
  localDescription : Option JSValue
  remoteDescription : Option JSValue
  remoteCandidates : List JSValue

/-- The relay client (`Client` of `@stomp/stompjs`). -/
structure Client where
  active : Bool

/-- A method call on the transport. -/
inductive PcCall where
  | createOffer
  | createAnswer
  | setLocalDescription (description : JSValue)
  | setRemoteDescription (description : JSValue)
  | addIceCandidate (candidate : JSValue)
  | close

/-- What the component does when a transport request is fulfilled. -/
inductive Continuation where
  /-- the promise is dropped (lines 93, 107, 113) -/
  | ignore
  /-- after `await pcRef.current.createOffer()` (line 139) -/
  | startCallOffer
  /-- after `await pcRef.current.setLocalDescription(offer)` (line 140) -/
  | startCallPublish (offer : JSValue)
  /-- the first `.then` of the OFFER branch (line 90) -/
  | offerCreateAnswer (senderId : JSValue)
  /-- the second `.then` of the OFFER branch (lines 91-103) -/
  | offerSendAnswer (senderId : JSValue)

/-- A transport request that is not settled yet. -/
structure Pending where
  call : PcCall
  next : Continuation

/-- How the transport settles a request; a promise without a value is fulfilled with
`undefined`. -/
inductive Reply where
  | fulfilled (value : JSValue)
  | rejected

/-- An observable action of the component, in program order. -/
inductive Effect where
  | pc (call : PcCall)
  | publish (destination : String) (body : String)
  | trackStop (track : MediaStreamTrack)
  | setInCall (value : Bool)
  | warn (text : String)

/-- An exception leaving a handler. -/
inductive Exn where
  | SyntaxError
  | TypeError
  deriving DecidableEq

/-- The state of one mounted `VideoCall` component. -/
structure Session where
  localId : String
  remoteId : String
  inCall : Bool
  pcRef : Option RTCPeerConnection
  stompClientRef : Option Client
  localVideoRef : Option VideoElement
  remoteVideoRef : Option VideoElement
  pending : List Pending

/-- The outcome of running one handler. -/
structure Result where
  session : Session
  trace : List Effect
  thrown : Option Exn

/-- The component at its first render: state and refs as declared in lines 10-17, the
two video elements attached. -/
def Session.init (localId remoteId : String) : Session :=
  { localId := localId, remoteId := remoteId, inCall := false,
    pcRef := none, stompClientRef := none,
    localVideoRef := some { srcObject := none },
    remoteVideoRef := some { srcObject := none },
    pending := [] }

/-- The mount effect as far as the refs go (lines 34-36 and 74-123): a fresh transport
and an activated relay client. -/
def mount (s : Session) : Session :=
  { s with
    pcRef := some { closed := false, localDescription := none,
                    remoteDescription := none, remoteCandidates := [] },
    stompClientRef := some { active := true } }

/-! ## Handlers -/

/-- Lines 20-29. -/
def stopLocalStream (s : Session) : Result :=
  let stream := s.localVideoRef.bind fun v => v.srcObject
  { session := { s with localVideoRef := s.localVideoRef.map fun _ => { srcObject := none } },
    trace := match stream with
      | some st => st.tracks.map Effect.trackStop
      | none => [],
    thrown := none }

/-- Lines 45-58, the `onicecandidate` callback; `candidate` is `event.candidate`. -/
def onicecandidate (J : JsonCodec) (s : Session) (candidate : JSValue) : Result :=
  match truthy candidate, s.stompClientRef with
  | true, some _ =>
    { session := s,
      trace := [.publish "/app/webrtc.ice"
        (J.stringify (signal "ICE" (some (.str s.localId)) (some (.str s.remoteId)) candidate))],
      thrown := none }
  | _, _ => { session := s, trace := [], thrown := none }

/-- Lines 82-115, the body of the `client.subscribe` callback up to the first
suspension of each branch; `body` is `msg.body`. -/
def onMessage (J : JsonCodec) (s : Session) (body : String) : Result :=
  match J.parse body with
  | none => { session := s, trace := [], thrown := some .SyntaxError }
  | some .null => { session := s, trace := [], thrown := some .TypeError }
  | some message =>
    if isString (message.prop "type") "OFFER" then
      match s.pcRef with
      | some _ =>
        { session := { s with
            inCall := true,
            pending := s.pending ++
              [⟨.setRemoteDescription (message.prop "data"),
                .offerCreateAnswer (message.prop "senderId")⟩] },
          trace := [.pc (.setRemoteDescription (message.prop "data")), .setInCall true],
          thrown := none }
      | none =>
        { session := { s with inCall := true }, trace := [.setInCall true], thrown := none }
    else if isString (message.prop "type") "ANSWER" then
      match s.pcRef with
      | some _ =>
        { session := { s with
            inCall := true,
            pending := s.pending ++ [⟨.setRemoteDescription (message.prop "data"), .ignore⟩] },
          trace := [.pc (.setRemoteDescription (message.prop "data")), .setInCall true],
          thrown := none }
      | none =>
        { session := { s with inCall := true }, trace := [.setInCall true], thrown := none }
    else if isString (message.prop "type") "ICE" then
      match s.pcRef with
      | some _ =>
        { session := { s with
            pending := s.pending ++ [⟨.addIceCandidate (message.prop "data"), .ignore⟩] },
          trace := [.pc (.addIceCandidate (message.prop "data"))],
          thrown := none }
      | none => { session := s, trace := [], thrown := none }
    else { session := s, trace := [], thrown := none }

/-- Lines 133-139, `startCall` up to its first `await`. -/
def startCall (s : Session) : Result :=
  match s.pcRef, s.stompClientRef with
  | some _, some _ =>
    { session := { s with pending := s.pending ++ [⟨.createOffer, .startCallOffer⟩] },
      trace := [.pc .createOffer],
      thrown := none }
  | _, _ =>
    { session := s, trace := [.warn "⚠️ Cannot start call, connection not ready"],
      thrown := none }

/-- Lines 155-161. -/
def endCall (s : Session) : Result :=
  let closed : Session :=
    { s with pcRef := s.pcRef.map fun pc => { pc with closed := true } }
  let stopped := stopLocalStream closed
  { session := { stopped.session with
      remoteVideoRef := stopped.session.remoteVideoRef.map fun _ => { srcObject := none },
      inCall := false },
    trace := (match s.pcRef with
        | some _ => [.pc .close]
        | none => []) ++ stopped.trace ++ [.setInCall false],
    thrown := none }

/-- Lines 301-309, the click handler of the call button. -/
def callButton (s : Session) : Result :=
  if s.inCall then endCall s else startCall s

/-! ## Promise continuations -/

/-- What a fulfilled request establishes on the transport. -/
def RTCPeerConnection.established (pc : RTCPeerConnection) : PcCall → RTCPeerConnection
  | .setLocalDescription d => { pc with localDescription := some d }
  | .setRemoteDescription d => { pc with remoteDescription := some d }
  | .addIceCandidate c => { pc with remoteCandidates := pc.remoteCandidates ++ [c] }
  | .close => { pc with closed := true }
  | .createOffer => pc
  | .createAnswer => pc

/-- Lines 91-103, the second `.then` callback of the OFFER branch. -/
def sendAnswer (J : JsonCodec) (s : Session) (senderId answer : JSValue) : Result :=
  let body := J.stringify (signal "ANSWER" (some (.str s.localId)) senderId answer)
  match s.pcRef with
  | some _ =>
    { session := { s with pending := s.pending ++ [⟨.setLocalDescription answer, .ignore⟩] },
      trace := [.pc (.setLocalDescription answer), .publish "/app/webrtc.answer" body],
      thrown := none }
  | none =>
    { session := s, trace := [.publish "/app/webrtc.answer" body], thrown := none }

/-- The code that runs when a request is fulfilled with `value`. -/
def resume (J : JsonCodec) (s : Session) : Continuation → JSValue → Result
  | .ignore, _ => { session := s, trace := [], thrown := none }
  | .startCallOffer, offer =>
    -- line 140: `await pcRef.current.setLocalDescription(offer)`
    match s.pcRef with
    | some _ =>
      { session := { s with
          pending := s.pending ++ [⟨.setLocalDescription offer, .startCallPublish offer⟩] },
        trace := [.pc (.setLocalDescription offer)],
        thrown := none }
    | none => { session := s, trace := [], thrown := some .TypeError }
  | .startCallPublish offer, _ =>
    -- lines 142-152
    match s.stompClientRef with
    | some _ =>
      { session := { s with inCall := true },
        trace := [.publish "/app/webrtc.offer"
            (J.stringify (signal "OFFER" (some (.str s.localId)) (some (.str s.remoteId)) offer)),
          .setInCall true],
        thrown := none }
    | none => { session := s, trace := [], thrown := some .TypeError }
  | .offerCreateAnswer senderId, _ =>
    -- line 90: `pcRef.current?.createAnswer()`
    match s.pcRef with
    | some _ =>
      { session := { s with
          pending := s.pending ++ [⟨.createAnswer, .offerSendAnswer senderId⟩] },
        trace := [.pc .createAnswer],
        thrown := none }
    | none => sendAnswer J s senderId none
  | .offerSendAnswer senderId, answer => sendAnswer J s senderId answer

/-- The transport settles the pending request number `i`: the request leaves the
queue; if it is fulfilled its result is established on the transport and the
continuation runs, if it is rejected the continuation is skipped. -/
def settle (J : JsonCodec) (s : Session) (i : Nat) (reply : Reply) : Result :=
  match s.pending.get? i with
  | none => { session := s, trace := [], thrown := none }
  | some p =>
    match reply with
    | .rejected =>
      { session := { s with pending := s.pending.eraseIdx i }, trace := [], thrown := none }
    | .fulfilled value =>
      resume J
        { s with
          pending := s.pending.eraseIdx i,
          pcRef := s.pcRef.map fun pc => pc.established p.call }
        p.next value

/-! ## Events -/

/-- What can happen to a mounted component. -/
inductive Event where
  | message (body : String)
  | icecandidate (candidate : JSValue)
  | startCall
  | endCall
  | callButton
  | settle (i : Nat) (reply : Reply)

/-- One turn of the event loop. -/
def step (J : JsonCodec) (s : Session) : Event → Result
  | .message body => onMessage J s body
  | .icecandidate candidate => onicecandidate J s candidate
  | .startCall => startCall s
  | .endCall => endCall s
  | .callButton => callButton s
  | .settle i reply => settle J s i reply

/-- A sequence of turns: the final session and the whole trace.  An exception ends the
turn that raised it and nothing else. -/
def run (J : JsonCodec) (s : Session) : List Event → Session × List Effect
  | [] => (s, [])
  | e :: es =>
    let r := step J s e
    let rest := run J r.session es
    (rest.1, r.trace ++ rest.2)

/-! ## The states of the specification, read off the component -/

/-- IDLE: not in a call, nothing requested of the transport, no description set, the
transport (if created) open. -/
def isIDLE (s : Session) : Bool :=
  !s.inCall && s.pending.isEmpty &&
    match s.pcRef with
    | some pc => !pc.closed && pc.localDescription.isNone && pc.remoteDescription.isNone
    | none => true

/-- OFFER_SENT: in a call, the local description set, no remote description yet. -/
def isOFFER_SENT (s : Session) : Bool :=
  s.inCall &&
    match s.pcRef with
    | some pc => !pc.closed && pc.localDescription.isSome && pc.remoteDescription.isNone
    | none => false

/-- OFFER_RECEIVED: in a call, an inbound offer being answered: a request to the
transport is outstanding and no local description is set yet. -/
def isOFFER_RECEIVED (s : Session) : Bool :=
  s.inCall && !s.pending.isEmpty &&
    match s.pcRef with
    | some pc => !pc.closed && pc.localDescription.isNone
    | none => false

/-- CONNECTED (§4.2: both descriptions set), in a call. -/
def isCONNECTED (s : Session) : Bool :=
  s.inCall &&
    match s.pcRef with
    | some pc => !pc.closed && pc.localDescription.isSome && pc.remoteDescription.isSome
    | none => false

/-- ENDED: not in a call and no open transport. -/
def isENDED (s : Session) : Bool :=
  !s.inCall &&
    match s.pcRef with
    | some pc => pc.closed
    | none => true

/-! ## A model of the JSON text format -/

namespace JSON

/-- The decimal digit `d` as a character. -/
def digitChar : Nat → Char
  | 0 => '0' | 1 => '1' | 2 => '2' | 3 => '3' | 4 => '4'
  | 5 => '5' | 6 => '6' | 7 => '7' | 8 => '8' | _ => '9'

/-- The decimal digits of `n`, most significant first (`fuel` bounds their number). -/
def decimal : Nat → Nat → List Nat
  | 0, _ => []
  | fuel + 1, n => if n < 10 then [n] else decimal fuel (n / 10) ++ [n % 10]

/-- A natural number in decimal. -/
def renderNat (n : Nat) : List Char := (decimal (n + 1) n).map digitChar

/-- An integer as `JSON.stringify` prints it. -/
def renderInt (n : Int) : List Char :=
  if n < 0 then '-' :: renderNat n.natAbs else renderNat n.natAbs

/-- A hexadecimal digit, lower case. -/
def hexChar : Nat → Char
  | 0 => '0' | 1 => '1' | 2 => '2' | 3 => '3' | 4 => '4' | 5 => '5' | 6 => '6' | 7 => '7'
  | 8 => '8' | 9 => '9' | 10 => 'a' | 11 => 'b' | 12 => 'c' | 13 => 'd' | 14 => 'e' | _ => 'f'

/-- One character of a string as it is written between the quotes: the quote, the
backslash and the control characters are escaped, anything else is copied. -/
def escapeChar (c : Char) : List Char :=
  if c = '"' then ['\\', '"']
  else if c = '\\' then ['\\', '\\']
  else if c = '\x08' then ['\\', 'b']
  else if c = '\x0c' then ['\\', 'f']
  else if c = '\n' then ['\\', 'n']
  else if c = '\r' then ['\\', 'r']
  else if c = '\t' then ['\\', 't']
  else if c.toNat < 32 then ['\\', 'u', '0', '0', hexChar (c.toNat / 16), hexChar (c.toNat % 16)]
  else [c]

/-- A string literal. -/
def quote (s : List Char) : List Char :=
  '"' :: (s.flatMap escapeChar ++ ['"'])

mutual
/-- The JSON text of a value, without white space. -/
def render : Json → List Char
  | .null => ['n', 'u', 'l', 'l']
  | .bool true => ['t', 'r', 'u', 'e']
  | .bool false => ['f', 'a', 'l', 's', 'e']
  | .num n => renderInt n
  | .str s => quote s.data
  | .arr [] => ['[', ']']
  | .arr (x :: xs) => '[' :: (render x ++ renderRest xs)
  | .obj [] => ['{', '}']
  | .obj ((k, v) :: ms) => '{' :: (quote k.data ++ ':' :: (render v ++ renderMembers ms))
def renderRest : List Json → List Char
  | [] => [']']
  | x :: xs => ',' :: (render x ++ renderRest xs)
def renderMembers : List (String × Json) → List Char
  | [] => ['}']
  | (k, v) :: ms => ',' :: (quote k.data ++ ':' :: (render v ++ renderMembers ms))
end

/-- Modelled from the spec: `JSON.stringify`, the platform function behind `encode`
(§4.1, §6: one JSON object per message); it is outside the repository.  The model
covers the values of `Json`. -/
def stringify (j : Json) : String := String.mk (render j)

/-- JSON white space. -/
def isWs (c : Char) : Bool :=
  c = ' ' || c = '\t' || c = '\n' || c = '\r'

/-- Drops leading white space. -/
def skipWs : List Char → List Char
  | [] => []
  | c :: cs => if isWs c then skipWs cs else c :: cs

/-- The value of a decimal digit. -/
def digitVal (c : Char) : Option Nat :=
  if c = '0' then some 0 else if c = '1' then some 1 else if c = '2' then some 2
  else if c = '3' then some 3 else if c = '4' then some 4 else if c = '5' then some 5
  else if c = '6' then some 6 else if c = '7' then some 7 else if c = '8' then some 8
  else if c = '9' then some 9 else none

/-- The value of a hexadecimal digit, either case. -/
def hexVal (c : Char) : Option Nat :=
  match digitVal c with
  | some d => some d
  | none =>
    if c = 'a' ∨ c = 'A' then some 10 else if c = 'b' ∨ c = 'B' then some 11
    else if c = 'c' ∨ c = 'C' then some 12 else if c = 'd' ∨ c = 'D' then some 13
    else if c = 'e' ∨ c = 'E' then some 14 else if c = 'f' ∨ c = 'F' then some 15
    else none

/-- The code unit written by four hexadecimal digits. -/
def hex4 (a b c d : Char) : Option Nat :=
  match hexVal a, hexVal b, hexVal c, hexVal d with
  | some x, some y, some z, some w => some (((x * 16 + y) * 16 + z) * 16 + w)
  | _, _, _, _ => none

/-- The character named by a one-letter escape. -/
def unescape (c : Char) : Option Char :=
  if c = '"' then some '"' else if c = '\\' then some '\\' else if c = '/' then some '/'
  else if c = 'b' then some '\x08' else if c = 'f' then some '\x0c'
  else if c = 'n' then some '\n' else if c = 'r' then some '\r'
  else if c = 't' then some '\t' else none

/-- Reads one item inside a string literal: the closing quote (`none`), or one
character, written plainly, by a one-letter escape, by a `\u` escape or by a surrogate
pair of `\u` escapes.  A raw control character and a lone surrogate are rejected. -/
def stringItem : List Char → Option (Option Char × List Char)
  | [] => none
  | c :: cs =>
    if c = '"' then some (none, cs)
    else if c = '\\' then
      match cs with
      | [] => none
      | e :: rest =>
        if e = 'u' then
          match rest with
          | a :: b :: c2 :: d :: rest2 =>
            match hex4 a b c2 d with
            | none => none
            | some n =>
              if n < 0xD800 ∨ 0xDFFF < n then some (some (Char.ofNat n), rest2)
              else if n < 0xDC00 then
                match rest2 with
                | b1 :: u1 :: a2 :: b2 :: c3 :: d2 :: rest3 =>
                  if b1 = '\\' ∧ u1 = 'u' then
                    match hex4 a2 b2 c3 d2 with
                    | none => none
                    | some m =>
                      if 0xDC00 ≤ m ∧ m ≤ 0xDFFF then
                        some (some (Char.ofNat (0x10000 + (n - 0xD800) * 0x400 + (m - 0xDC00))),
                          rest3)
                      else none
                  else none
                | _ => none
              else none
          | _ => none
        else
          match unescape e with
          | none => none
          | some ch => some (some ch, rest)
    else if c.toNat < 32 then none
    else some (some c, cs)

/-- Reads the rest of a string literal, after the opening quote. -/
def parseChars : Nat → List Char → Option (List Char × List Char)
  | 0, _ => none
  | fuel + 1, cs =>
    match stringItem cs with
    | none => none
    | some (none, rest) => some ([], rest)
    | some (some ch, rest) => (parseChars fuel rest).map fun r => (ch :: r.1, r.2)

/-- The longest run of decimal digits at the front. -/
def takeDigits : List Char → List Nat × List Char
  | [] => ([], [])
  | c :: cs =>
    match digitVal c with
    | some d => let r := takeDigits cs; (d :: r.1, r.2)
    | none => ([], c :: cs)

/-- The number written by decimal digits. -/
def ofDigits (ds : List Nat) : Nat := ds.foldl (fun acc d => 10 * acc + d) 0

/-- Whether an integer literal ends here: a fraction or an exponent does not follow. -/
def numberEnds : List Char → Bool
  | [] => true
  | c :: _ => !(c = '.' || c = 'e' || c = 'E')

/-- An unsigned integer literal without a superfluous leading zero. -/
def parseNat (cs : List Char) : Option (Nat × List Char) :=
  match takeDigits cs with
  | ([], _) => none
  | (d :: ds, rest) =>
    if d = 0 ∧ ds ≠ [] then none
    else if numberEnds rest then some (ofDigits (d :: ds), rest) else none

/-- An integer literal. -/
def parseInt : List Char → Option (Int × List Char)
  | [] => none
  | c :: cs =>
    if c = '-' then (parseNat cs).map fun r => (-(r.1 : Int), r.2)
    else (parseNat (c :: cs)).map fun r => ((r.1 : Int), r.2)

/-- Defines a property on an object under construction: a repeated key keeps its place
and takes the later value. -/
def setProp (members : List (String × Json)) (k : String) (v : Json) : List (String × Json) :=
  match members with
  | [] => [(k, v)]
  | (k1, v1) :: ms => if k1 = k then (k1, v) :: ms else (k1, v1) :: setProp ms k v

/-- The object with the given members, defined in order. -/
def mkObject (members : List (String × Json)) : Json :=
  .obj (members.foldl (fun acc kv => setProp acc kv.1 kv.2) [])

/-- Consumes the given characters from the front. -/
def literal : List Char → List Char → Option (List Char)
  | [], cs => some cs
  | _ :: _, [] => none
  | p :: ps, c :: cs => if p = c then literal ps cs else none

mutual
/-- A JSON value, then `parseRest` the elements of an array after the first,
`parseMember` one `key : value` pair and `parseMembers` the pairs after the first. -/
def parseValue : Nat → List Char → Option (Json × List Char)
  | 0, _ => none
  | fuel + 1, cs =>
    match skipWs cs with
    | [] => none
    | c :: rest =>
      if c = '"' then (parseChars (rest.length + 1) rest).map fun r => (.str (String.mk r.1), r.2)
      else if c = '[' then
        match skipWs rest with
        | [] => none
        | c1 :: rest1 =>
          if c1 = ']' then some (.arr [], rest1)
          else
            match parseValue fuel (c1 :: rest1) with
            | none => none
            | some (v, rest2) => (parseRest fuel rest2).map fun r => (.arr (v :: r.1), r.2)
      else if c = '{' then
        match skipWs rest with
        | [] => none
        | c1 :: rest1 =>
          if c1 = '}' then some (.obj [], rest1)
          else
            match parseMember fuel (c1 :: rest1) with
            | none => none
            | some (kv, rest2) => (parseMembers fuel rest2).map fun r => (mkObject (kv :: r.1), r.2)
      else if c = 'n' then (literal ['u', 'l', 'l'] rest).map fun r => (.null, r)
      else if c = 't' then (literal ['r', 'u', 'e'] rest).map fun r => (.bool true, r)
      else if c = 'f' then (literal ['a', 'l', 's', 'e'] rest).map fun r => (.bool false, r)
      else (parseInt (c :: rest)).map fun r => (.num r.1, r.2)
def parseRest : Nat → List Char → Option (List Json × List Char)
  | 0, _ => none
  | fuel + 1, cs =>
    match skipWs cs with
    | [] => none
    | c :: rest =>
      if c = ']' then some ([], rest)
      else if c = ',' then
        match parseValue fuel rest with
        | none => none
        | some (v, rest2) => (parseRest fuel rest2).map fun r => (v :: r.1, r.2)
      else none
def parseMember : Nat → List Char → Option ((String × Json) × List Char)
  | 0, _ => none
  | fuel + 1, cs =>
    match skipWs cs with
    | [] => none
    | c :: rest =>
      if c = '"' then
        match parseChars (rest.length + 1) rest with
        | none => none
        | some (k, rest1) =>
          match skipWs rest1 with
          | [] => none
          | c1 :: rest2 =>
            if c1 = ':' then (parseValue fuel rest2).map fun r => ((String.mk k, r.1), r.2)
            else none
      else none
def parseMembers : Nat → List Char → Option (List (String × Json) × List Char)
  | 0, _ => none
  | fuel + 1, cs =>
    match skipWs cs with
    | [] => none
    | c :: rest =>
      if c = '}' then some ([], rest)
      else if c = ',' then
        match parseMember fuel rest with
        | none => none
        | some (kv, rest2) => (parseMembers fuel rest2).map fun r => (kv :: r.1, r.2)
      else none
end

/-- Modelled from the spec: `JSON.parse`, the platform function behind `decode`
(§4.1); `none` stands for the `SyntaxError` it throws.  The model reads the JSON
grammar with integer numbers: a number with a fraction or an exponent is outside the
model and is not read. -/
def parse (text : String) : Option Json :=
  match parseValue (text.length + 1) text.data with
  | none => none
  | some (v, rest) => if (skipWs rest).isEmpty then some v else none

mutual
/-- A bound on the recursion depth `parseValue` needs to read a value back. -/
def size : Json → Nat
  | .arr (x :: xs) => 1 + size x + sizeRest xs
  | .obj ((_, v) :: ms) => 2 + size v + sizeMembers ms
  | _ => 1
def sizeRest : List Json → Nat
  | [] => 1
  | x :: xs => 1 + size x + sizeRest xs
def sizeMembers : List (String × Json) → Nat
  | [] => 1
  | (_, v) :: ms => 2 + size v + sizeMembers ms
end

/-- Whether a member list defines the key. -/
def hasKey (k : String) (ms : List (String × Json)) : Bool := ms.any fun kv => kv.1 == k

mutual
/-- A value that a JavaScript program can hold: every number is a safe integer (below
2^53 in magnitude) and no object defines a key twice. -/
def wellFormed : Json → Bool
  | .num n => decide (n.natAbs < 9007199254740992)
  | .arr xs => wellFormedList xs
  | .obj ms => wellFormedMembers ms
  | _ => true
def wellFormedList : List Json → Bool
  | [] => true
  | x :: xs => wellFormed x && wellFormedList xs
def wellFormedMembers : List (String × Json) → Bool
  | [] => true
  | (k, v) :: ms => !hasKey k ms && wellFormed v && wellFormedMembers ms
end

/-- What may follow a value inside a JSON text: nothing, a comma or a closing bracket. -/
def delimited : List Char → Prop
  | [] => True
  | c :: _ => c = ',' ∨ c = ']' ∨ c = '}'

/-- The keys of a member list are pairwise distinct. -/
def distinctKeys : List (String × Json) → Bool
  | [] => true
  | (k, _) :: ms => !hasKey k ms && distinctKeys ms

end JSON

/-! ## The signaling codec -/

/-- The platform functions as modelled in `JSON`. -/
def JSON.codec : JsonCodec :=
  { stringify := JSON.stringify, parse := JSON.parse }

/-- A signaling message (§3, §6). -/
structure SignalingMessage where
  type : String
  senderId : String
  recipientId : String
  data : Json

/-- The text the sender publishes for a message: `JSON.stringify` of the four-field
object (lines 50-55, 96-101 and 145-150). -/
def encode (J : JsonCodec) (m : SignalingMessage) : String :=
  J.stringify (signal m.type (some (.str m.senderId)) (some (.str m.recipientId)) (some m.data))

/-- The receiver: `JSON.parse(msg.body)` (line 83). -/
def decode (J : JsonCodec) (body : String) : Option Json :=
  J.parse body

/-! ## Traces -/

/-- Whether an effect is a publish to the relay. -/
def Effect.isPublish : Effect → Bool
  | .publish _ _ => true
  | _ => false

/-- Whether an effect stops a media track. -/
def Effect.isTrackStop : Effect → Bool
  | .trackStop _ => true
  | _ => false

/-- Whether an effect is a `createOffer` call. -/
def Effect.isCreateOffer : Effect → Bool
  | .pc .createOffer => true
  | _ => false

/-- The stream attached to the local sink, if any. -/
def Session.localStream (s : Session) : Option MediaStream :=
  s.localVideoRef.bind fun v => v.srcObject

/-! ## Scenarios and event classes used in the statements -/

/-- The events of an inbound OFFER that the transport serves: the message, then the
fulfilment of `setRemoteDescription`, of `createAnswer` (with `answer`) and of
`setLocalDescription`. -/
def offerServed (body : String) (answer : Json) : List Event :=
  [.message body, .settle 0 (.fulfilled none), .settle 0 (.fulfilled (some answer)),
    .settle 0 (.fulfilled none)]

/-- The text of a signaling message as the peer publishes it, with the JSON model. -/
def wire (type : String) (senderId recipientId : String) (data : Json) : String :=
  encode JSON.codec { type := type, senderId := senderId, recipientId := recipientId,
                      data := data }

/-- The relay text `body` decodes to an ICE message carrying `candidate`. -/
def decodesIce (J : JsonCodec) (body : String) (candidate : JSValue) : Prop :=
  ∃ m, J.parse body = some m ∧ m.prop "type" = some (.str "ICE") ∧ m.prop "data" = candidate

/-- Two ICE messages of the peer, each with the candidate it carries. -/
def twoCandidates : List (String × JSValue) :=
  [(wire "ICE" "b" "a" (.str "c1"), some (.str "c1")),
    (wire "ICE" "b" "a" (.str "c2"), some (.str "c2"))]

/-- An event on which a closed transport stays silent: any event but the fulfilment of
a request and the discovery of a local candidate. -/
def Event.quiet : Event → Bool
  | .settle _ (.fulfilled _) => false
  | .icecandidate (some _) => false
  | _ => true

/-- Later events at an ended session: an inbound OFFER, an ICE message, a `startCall()`
request and the rejections of the closed transport. -/
def afterEnd : List Event :=
  [.message (wire "OFFER" "b" "a" (.str "offer")), .message (wire "ICE" "b" "a" (.str "c1")),
    .startCall, .settle 0 .rejected, .settle 0 .rejected, .settle 0 .rejected]

/-- A mounted session in a call, with the camera stream on the local sink and the
stream of the peer on the remote sink. -/
def onCamera : Session :=
  { mount (Session.init "a" "b") with
    inCall := true,
    localVideoRef := some { srcObject := some { tracks :=
      [{ kind := "audio", enabled := true }, { kind := "video", enabled := true }] } },
    remoteVideoRef := some { srcObject := some { tracks :=
      [{ kind := "video", enabled := true }] } } }

/-- The session after `startCall()` and the fulfilment of its two requests. -/
def offerSent : Session :=
  (run JSON.codec (mount (Session.init "a" "b"))
    [.startCall, .settle 0 (.fulfilled (some (.str "offer"))), .settle 0 (.fulfilled none)]).1

namespace JSON

/-! ## The round trip of the JSON model -/

theorem skipWs_of_not_ws (c : Char) (cs : List Char) (h : isWs c = false) :
    skipWs (c :: cs) = c :: cs := by
  simp [skipWs, h]

theorem digitVal_digitChar : ∀ d, d < 10 → digitVal (digitChar d) = some d := by decide

theorem decimal_lt (fuel : Nat) : ∀ n, ∀ d ∈ decimal fuel n, d < 10 := by
  induction fuel with
  | zero => intro n d hd; simp [decimal] at hd
  | succ f ih =>
    intro n d hd
    unfold decimal at hd
    split at hd
    · simp at hd; omega
    · rcases List.mem_append.mp hd with h | h
      · exact ih _ _ h
      · simp at h; omega

theorem ofDigits_append (xs : List Nat) (d : Nat) : ofDigits (xs ++ [d]) = 10 * ofDigits xs + d := by
  simp [ofDigits, List.foldl_append]

theorem ofDigits_decimal (fuel : Nat) : ∀ n, n < fuel → ofDigits (decimal fuel n) = n := by
  induction fuel with
  | zero => intro n h; omega
  | succ f ih =>
    intro n h
    unfold decimal
    split
    · simp [ofDigits]
    · rw [ofDigits_append, ih (n / 10) (by omega)]; omega

theorem decimal_head (fuel : Nat) : ∀ n, n < fuel →
    ∃ d ds, decimal fuel n = d :: ds ∧ (d = 0 → ds = [] ∧ n = 0) := by
  induction fuel with
  | zero => intro n h; omega
  | succ f ih =>
    intro n h
    unfold decimal
    split
    · exact ⟨n, [], rfl, fun h0 => ⟨rfl, h0⟩⟩
    · obtain ⟨d, ds, hd, h0⟩ := ih (n / 10) (by omega)
      refine ⟨d, ds ++ [n % 10], by simp [hd], fun hz => ?_⟩
      have := (h0 hz).2
      omega

theorem takeDigits_map (ds : List Nat) (rest : List Char) (hds : ∀ d ∈ ds, d < 10)
    (hrest : ∀ c cs, rest = c :: cs → digitVal c = none) :
    takeDigits (ds.map digitChar ++ rest) = (ds, rest) := by
  induction ds with
  | nil =>
    cases rest with
    | nil => rfl
    | cons c cs => simp [takeDigits, hrest c cs rfl]
  | cons d ds ih =>
    have hd := digitVal_digitChar d (hds d (by simp))
    simp [takeDigits, hd, ih (fun x hx => hds x (by simp [hx]))]

theorem delimited_digitVal (rest : List Char) (h : delimited rest) :
    ∀ c cs, rest = c :: cs → digitVal c = none := by
  intro c cs hc
  subst hc
  rcases h with h | h | h <;> subst h <;> rfl

theorem delimited_numberEnds (rest : List Char) (h : delimited rest) : numberEnds rest = true := by
  cases rest with
  | nil => rfl
  | cons c cs => rcases h with h | h | h <;> subst h <;> rfl

theorem parseNat_renderNat (n : Nat) (rest : List Char) (h : delimited rest) :
    parseNat (renderNat n ++ rest) = some (n, rest) := by
  obtain ⟨d, ds, hd, h0⟩ := decimal_head (n + 1) n (by omega)
  have hval := ofDigits_decimal (n + 1) n (by omega)
  unfold parseNat renderNat
  rw [takeDigits_map _ _ (decimal_lt _ _) (delimited_digitVal rest h), hd]
  rw [hd] at hval
  simp only [delimited_numberEnds rest h, hval]
  by_cases hz : d = 0
  · simp [(h0 hz).1]
  · simp [hz]


theorem digitChar_ne_minus (d : Nat) : digitChar d ≠ '-' := by
  unfold digitChar
  split <;> decide

theorem parseInt_renderInt (n : Int) (rest : List Char) (h : delimited rest) :
    parseInt (renderInt n ++ rest) = some (n, rest) := by
  unfold renderInt
  split
  · rename_i hn
    simp only [List.cons_append, parseInt, if_true, parseNat_renderNat _ rest h, Option.map_some']
    congr 2
    omega
  · rename_i hn
    obtain ⟨d, ds, hd, -⟩ := decimal_head (n.natAbs + 1) n.natAbs (by omega)
    have hp := parseNat_renderNat n.natAbs rest h
    have hr : renderNat n.natAbs = digitChar d :: ds.map digitChar := by
      simp [renderNat, hd]
    rw [hr] at hp ⊢
    simp only [List.cons_append, parseInt, if_neg (digitChar_ne_minus d)]
    rw [List.cons_append] at hp
    rw [hp]
    simp only [Option.map_some']
    congr 2
    omega

theorem hex4_control : ∀ n, n < 32 →
    hex4 '0' '0' (hexChar (n / 16)) (hexChar (n % 16)) = some n := by decide

theorem stringItem_escapeChar (c : Char) (tail : List Char) :
    stringItem (escapeChar c ++ tail) = some (some c, tail) := by
  unfold escapeChar
  split
  · rename_i h; subst h; simp [stringItem, unescape]
  split
  · rename_i h; subst h; simp [stringItem, unescape]
  split
  · rename_i h; subst h; simp [stringItem, unescape]
  split
  · rename_i h; subst h; simp [stringItem, unescape]
  split
  · rename_i h; subst h; simp [stringItem, unescape]
  split
  · rename_i h; subst h; simp [stringItem, unescape]
  split
  · rename_i h; subst h; simp [stringItem, unescape]
  split
  · rename_i h1 h2 h3 h4 h5 h6 h7 h
    have hx := hex4_control c.toNat h
    simp only [List.cons_append, List.nil_append, stringItem]
    simp only [hx]
    have : c.toNat < 0xD800 := by omega
    simp [this, Char.ofNat_toNat]
  · rename_i h1 h2 h3 h4 h5 h6 h7 h
    simp only [List.cons_append, List.nil_append, stringItem, if_neg h1, if_neg h2, if_neg h]

theorem parseChars_quote (s : List Char) : ∀ (fuel : Nat) (rest : List Char), s.length < fuel →
    parseChars fuel (s.flatMap escapeChar ++ '"' :: rest) = some (s, rest) := by
  induction s with
  | nil =>
    intro fuel rest h
    obtain ⟨f, rfl⟩ : ∃ f, fuel = f + 1 := ⟨fuel - 1, by omega⟩
    simp [parseChars, stringItem]
  | cons c cs ih =>
    intro fuel rest h
    obtain ⟨f, rfl⟩ : ∃ f, fuel = f + 1 := ⟨fuel - 1, by omega⟩
    rw [List.flatMap_cons, List.append_assoc]
    simp only [parseChars, stringItem_escapeChar]
    rw [ih f rest (by simpa using h)]
    rfl


theorem length_le_flatMap_escapeChar (s : List Char) : s.length ≤ (s.flatMap escapeChar).length := by
  induction s with
  | nil => simp
  | cons c cs ih =>
    have hc : 1 ≤ (escapeChar c).length := by
      unfold escapeChar
      repeat (first | split | simp)
    simp only [List.flatMap_cons, List.length_append, List.length_cons]
    omega

theorem parseChars_quote_self (s : List Char) (rest : List Char) :
    parseChars ((s.flatMap escapeChar ++ '"' :: rest).length + 1)
      (s.flatMap escapeChar ++ '"' :: rest) = some (s, rest) := by
  apply parseChars_quote
  have := length_le_flatMap_escapeChar s
  simp only [List.length_append, List.length_cons]
  omega

theorem digitChar_class (d : Nat) :
    isWs (digitChar d) = false ∧ digitChar d ≠ '"' ∧ digitChar d ≠ '[' ∧ digitChar d ≠ '{' ∧
      digitChar d ≠ 'n' ∧ digitChar d ≠ 't' ∧ digitChar d ≠ 'f' := by
  unfold digitChar
  split <;> decide

theorem renderInt_head (n : Int) : ∃ c cs, renderInt n = c :: cs ∧
    isWs c = false ∧ c ≠ '"' ∧ c ≠ '[' ∧ c ≠ '{' ∧ c ≠ 'n' ∧ c ≠ 't' ∧ c ≠ 'f' := by
  unfold renderInt
  split
  · exact ⟨'-', _, rfl, by decide⟩
  · obtain ⟨d, ds, hd, -⟩ := decimal_head (n.natAbs + 1) n.natAbs (by omega)
    exact ⟨digitChar d, ds.map digitChar, by simp [renderNat, hd], digitChar_class d⟩

theorem setProp_append (acc : List (String × Json)) (k : String) (v : Json)
    (h : hasKey k acc = false) : setProp acc k v = acc ++ [(k, v)] := by
  induction acc with
  | nil => rfl
  | cons kv acc ih =>
    obtain ⟨k1, v1⟩ := kv
    simp only [hasKey, List.any_cons, Bool.or_eq_false_iff, beq_eq_false_iff_ne, ne_eq] at h
    simp only [setProp, if_neg h.1, List.cons_append]
    rw [ih (by simpa [hasKey] using h.2)]

theorem hasKey_append (k : String) (xs ys : List (String × Json)) :
    hasKey k (xs ++ ys) = (hasKey k xs || hasKey k ys) := by
  simp [hasKey]

theorem foldl_setProp (ms : List (String × Json)) : ∀ acc : List (String × Json),
    distinctKeys ms = true → (∀ kv ∈ ms, hasKey kv.1 acc = false) →
    ms.foldl (fun a kv => setProp a kv.1 kv.2) acc = acc ++ ms := by
  induction ms with
  | nil => intro acc _ _; simp
  | cons kv ms ih =>
    intro acc hd hacc
    obtain ⟨k, v⟩ := kv
    simp only [distinctKeys, Bool.and_eq_true, Bool.not_eq_true'] at hd
    simp only [List.foldl_cons]
    rw [setProp_append acc k v (hacc (k, v) (by simp))]
    rw [ih _ hd.2, List.append_assoc]
    · rfl
    · intro kv hkv
      rw [hasKey_append, hacc kv (by simp [hkv])]
      simp only [hasKey, List.any_cons, List.any_nil, Bool.or_false, Bool.false_or,
        beq_eq_false_iff_ne, ne_eq]
      intro heq
      have : hasKey k ms = true := by
        simp only [hasKey, List.any_eq_true, beq_iff_eq]
        exact ⟨kv, hkv, heq.symm⟩
      rw [this] at hd
      exact absurd hd.1 (by simp)

theorem wellFormedMembers_distinct (ms : List (String × Json)) (h : wellFormedMembers ms = true) :
    distinctKeys ms = true := by
  induction ms with
  | nil => rfl
  | cons kv ms ih =>
    obtain ⟨k, v⟩ := kv
    simp only [wellFormedMembers, Bool.and_eq_true, Bool.not_eq_true'] at h
    simp only [distinctKeys, Bool.and_eq_true, Bool.not_eq_true']
    exact ⟨h.1.1, ih h.2⟩

theorem mkObject_of_wellFormed (ms : List (String × Json)) (h : wellFormedMembers ms = true) :
    mkObject ms = .obj ms := by
  unfold mkObject
  rw [foldl_setProp ms [] (wellFormedMembers_distinct ms h) (by intro kv _; rfl)]
  rfl

theorem delimited_renderRest (xs : List Json) (rest : List Char) :
    delimited (renderRest xs ++ rest) := by
  cases xs with
  | nil => simp [renderRest, delimited]
  | cons x xs => simp [renderRest, delimited]

theorem delimited_renderMembers (ms : List (String × Json)) (rest : List Char) :
    delimited (renderMembers ms ++ rest) := by
  cases ms with
  | nil => simp [renderMembers, delimited]
  | cons kv ms => obtain ⟨k, v⟩ := kv; simp [renderMembers, delimited]

theorem parseMember_quote (k : String) (v : Json) (fuel : Nat) (tail : List Char)
    (h : parseValue fuel (render v ++ tail) = some (v, tail)) :
    parseMember (fuel + 1) (quote k.data ++ ':' :: (render v ++ tail)) = some ((k, v), tail) := by
  simp only [quote, List.cons_append, List.append_assoc, parseMember]
  rw [skipWs_of_not_ws _ _ (by decide)]
  simp only [if_true]
  rw [List.nil_append, parseChars_quote_self]
  simp only []
  rw [skipWs_of_not_ws _ _ (by decide)]
  simp [h]


theorem render_head (v : Json) : ∃ c cs, render v = c :: cs ∧ isWs c = false ∧ c ≠ ']' ∧ c ≠ '}' := by
  cases v with
  | null => exact ⟨_, _, rfl, by decide⟩
  | bool b => cases b <;> exact ⟨_, _, rfl, by decide⟩
  | num n =>
    unfold render renderInt
    split
    · exact ⟨'-', _, rfl, by decide⟩
    · obtain ⟨d, ds, hd, -⟩ := decimal_head (n.natAbs + 1) n.natAbs (by omega)
      refine ⟨digitChar d, ds.map digitChar, by simp [renderNat, hd], ?_⟩
      unfold digitChar
      split <;> decide
  | str s => exact ⟨'"', _, rfl, by decide⟩
  | arr xs => cases xs <;> exact ⟨'[', _, rfl, by decide⟩
  | obj ms =>
    cases ms with
    | nil => exact ⟨'{', _, rfl, by decide⟩
    | cons kv ms => obtain ⟨k, v⟩ := kv; exact ⟨'{', _, rfl, by decide⟩

mutual
theorem parseValue_render : ∀ (v : Json) (fuel : Nat) (rest : List Char),
    wellFormed v = true → size v ≤ fuel → delimited rest →
    parseValue fuel (render v ++ rest) = some (v, rest)
  | .null, fuel, rest, _, hs, _ => by
    obtain ⟨f, rfl⟩ : ∃ f, fuel = f + 1 := ⟨fuel - 1, by simp [size] at hs; omega⟩
    simp [render, parseValue, skipWs, isWs, literal]
  | .bool true, fuel, rest, _, hs, _ => by
    obtain ⟨f, rfl⟩ : ∃ f, fuel = f + 1 := ⟨fuel - 1, by simp [size] at hs; omega⟩
    simp [render, parseValue, skipWs, isWs, literal]
  | .bool false, fuel, rest, _, hs, _ => by
    obtain ⟨f, rfl⟩ : ∃ f, fuel = f + 1 := ⟨fuel - 1, by simp [size] at hs; omega⟩
    simp [render, parseValue, skipWs, isWs, literal]
  | .num n, fuel, rest, _, hs, hr => by
    obtain ⟨f, rfl⟩ : ∃ f, fuel = f + 1 := ⟨fuel - 1, by simp [size] at hs; omega⟩
    have hp := parseInt_renderInt n rest hr
    obtain ⟨c, cs, hc, hws, h1, h2, h3, h4, h5, h6⟩ := renderInt_head n
    simp only [render]
    rw [hc] at hp ⊢
    rw [List.cons_append] at hp ⊢
    simp only [parseValue, skipWs_of_not_ws _ _ hws, if_neg h1, if_neg h2, if_neg h3, if_neg h4,
      if_neg h5, if_neg h6, hp, Option.map_some']
  | .str s, fuel, rest, _, hs, _ => by
    obtain ⟨f, rfl⟩ : ∃ f, fuel = f + 1 := ⟨fuel - 1, by simp [size] at hs; omega⟩
    simp only [render, quote, List.cons_append, List.append_assoc, parseValue]
    rw [skipWs_of_not_ws _ _ (by decide)]
    simp only [if_true]
    rw [List.nil_append, parseChars_quote_self]
    rfl
  | .arr [], fuel, rest, _, hs, _ => by
    obtain ⟨f, rfl⟩ : ∃ f, fuel = f + 1 := ⟨fuel - 1, by simp [size] at hs; omega⟩
    simp [render, parseValue, skipWs, isWs]
  | .arr (x :: xs), fuel, rest, hw, hs, hr => by
    obtain ⟨f, rfl⟩ : ∃ f, fuel = f + 1 := ⟨fuel - 1, by simp [size] at hs; omega⟩
    simp only [wellFormed, wellFormedList, Bool.and_eq_true] at hw
    simp only [size] at hs
    have hx := parseValue_render x f (renderRest xs ++ rest) hw.1 (by omega)
      (delimited_renderRest xs rest)
    have hxs := parseRest_render xs f rest hw.2 (by omega) hr
    obtain ⟨c, cs, hc, hws, hne⟩ := render_head x
    simp only [render, List.cons_append, List.append_assoc, parseValue]
    rw [skipWs_of_not_ws _ _ (by decide)]
    simp only [if_neg (show ¬ '[' = '"' by decide), if_true]
    rw [hc] at hx ⊢
    rw [List.cons_append] at hx ⊢
    rw [skipWs_of_not_ws _ _ hws]
    simp only [if_neg hne.1, hx, hxs, Option.map_some']
  | .obj [], fuel, rest, _, hs, _ => by
    obtain ⟨f, rfl⟩ : ∃ f, fuel = f + 1 := ⟨fuel - 1, by simp [size] at hs; omega⟩
    simp [render, parseValue, skipWs, isWs]
  | .obj ((k, v) :: ms), fuel, rest, hw, hs, hr => by
    obtain ⟨f, rfl⟩ : ∃ f, fuel = f + 1 := ⟨fuel - 1, by simp [size] at hs; omega⟩
    simp only [size] at hs
    have hw2 := hw
    simp only [wellFormed, wellFormedMembers, Bool.and_eq_true] at hw
    have hms := parseMembers_render ms f rest hw.2 (by omega) hr
    have hm : parseMember f (quote k.data ++ ':' :: (render v ++ (renderMembers ms ++ rest))) =
        some ((k, v), renderMembers ms ++ rest) := by
      obtain ⟨g, rfl⟩ : ∃ g, f = g + 1 := ⟨f - 1, by omega⟩
      exact parseMember_quote k v g _ (parseValue_render v g (renderMembers ms ++ rest) hw.1.2
        (by omega) (delimited_renderMembers ms rest))
    simp only [render, List.cons_append, parseValue]
    rw [skipWs_of_not_ws _ _ (by decide)]
    simp only [if_neg (show ¬ '{' = '"' by decide), if_neg (show ¬ '{' = '[' by decide), if_true]
    simp only [quote, List.cons_append, List.append_assoc] at hm ⊢
    rw [skipWs_of_not_ws _ _ (by decide)]
    simp only [if_neg (show ¬ '"' = '}' by decide), hm, hms, Option.map_some']
    rw [mkObject_of_wellFormed _ (by simpa [wellFormed] using hw2)]
theorem parseRest_render : ∀ (xs : List Json) (fuel : Nat) (rest : List Char),
    wellFormedList xs = true → sizeRest xs ≤ fuel → delimited rest →
    parseRest fuel (renderRest xs ++ rest) = some (xs, rest)
  | [], fuel, rest, _, hs, _ => by
    obtain ⟨f, rfl⟩ : ∃ f, fuel = f + 1 := ⟨fuel - 1, by simp [sizeRest] at hs; omega⟩
    simp [renderRest, parseRest, skipWs, isWs]
  | x :: xs, fuel, rest, hw, hs, hr => by
    obtain ⟨f, rfl⟩ : ∃ f, fuel = f + 1 := ⟨fuel - 1, by simp [sizeRest] at hs; omega⟩
    simp only [wellFormedList, Bool.and_eq_true] at hw
    simp only [sizeRest] at hs
    have hx := parseValue_render x f (renderRest xs ++ rest) hw.1 (by omega)
      (delimited_renderRest xs rest)
    have hxs := parseRest_render xs f rest hw.2 (by omega) hr
    simp only [renderRest, List.cons_append, List.append_assoc, parseRest]
    rw [skipWs_of_not_ws _ _ (by decide)]
    simp [hx, hxs]
theorem parseMembers_render : ∀ (ms : List (String × Json)) (fuel : Nat) (rest : List Char),
    wellFormedMembers ms = true → sizeMembers ms ≤ fuel → delimited rest →
    parseMembers fuel (renderMembers ms ++ rest) = some (ms, rest)
  | [], fuel, rest, _, hs, _ => by
    obtain ⟨f, rfl⟩ : ∃ f, fuel = f + 1 := ⟨fuel - 1, by simp [sizeMembers] at hs; omega⟩
    simp [renderMembers, parseMembers, skipWs, isWs]
  | (k, v) :: ms, fuel, rest, hw, hs, hr => by
    obtain ⟨f, rfl⟩ : ∃ f, fuel = f + 1 := ⟨fuel - 1, by simp [sizeMembers] at hs; omega⟩
    simp only [sizeMembers] at hs
    simp only [wellFormedMembers, Bool.and_eq_true] at hw
    have hms := parseMembers_render ms f rest hw.2 (by omega) hr
    have hm : parseMember f (quote k.data ++ ':' :: (render v ++ (renderMembers ms ++ rest))) =
        some ((k, v), renderMembers ms ++ rest) := by
      obtain ⟨g, rfl⟩ : ∃ g, f = g + 1 := ⟨f - 1, by omega⟩
      exact parseMember_quote k v g _ (parseValue_render v g (renderMembers ms ++ rest) hw.1.2
        (by omega) (delimited_renderMembers ms rest))
    simp only [renderMembers, List.cons_append, parseMembers]
    rw [skipWs_of_not_ws _ _ (by decide)]
    simp only [List.append_assoc, List.cons_append] at hm ⊢
    simp [hm, hms]
end


mutual
theorem size_le_length : ∀ v : Json, size v ≤ (render v).length
  | .null => by simp [size, render]
  | .bool true => by simp [size, render]
  | .bool false => by simp [size, render]
  | .num n => by
    obtain ⟨c, cs, hc, -⟩ := renderInt_head n
    simp [size, render, hc]
  | .str s => by simp [size, render, quote]
  | .arr [] => by simp [size, render]
  | .arr (x :: xs) => by
    have h1 := size_le_length x
    have h2 := sizeRest_le_length xs
    simp only [size, render, List.length_cons, List.length_append]
    omega
  | .obj [] => by simp [size, render]
  | .obj ((k, v) :: ms) => by
    have h1 := size_le_length v
    have h2 := sizeMembers_le_length ms
    simp only [size, render, quote, List.length_cons, List.length_append]
    omega
theorem sizeRest_le_length : ∀ xs : List Json, sizeRest xs ≤ (renderRest xs).length
  | [] => by simp [sizeRest, renderRest]
  | x :: xs => by
    have h1 := size_le_length x
    have h2 := sizeRest_le_length xs
    simp only [sizeRest, renderRest, List.length_cons, List.length_append]
    omega
theorem sizeMembers_le_length : ∀ ms : List (String × Json),
    sizeMembers ms ≤ (renderMembers ms).length
  | [] => by simp [sizeMembers, renderMembers]
  | (k, v) :: ms => by
    have h1 := size_le_length v
    have h2 := sizeMembers_le_length ms
    simp only [sizeMembers, renderMembers, quote, List.length_cons, List.length_append]
    omega
end

theorem parse_stringify (v : Json) (h : wellFormed v = true) : parse (stringify v) = some v := by
  have hp := parseValue_render v ((render v).length + 1) [] h
    (Nat.le_succ_of_le (size_le_length v)) trivial
  rw [List.append_nil] at hp
  simp [parse, stringify, String.length, hp, skipWs]

end JSON

/-! ## `startCall` and `endCall` -/

/-- C10: when the transport (`pcRef`) or the relay client (`stompClientRef`) is not
initialised, `startCall()` returns without raising, leaves the session (the in-call flag
included) as it was, and its only action is the console warning: no offer is created, no
description applied, nothing published. -/
theorem C10_startCall_not_ready (s : Session)
    (h : s.pcRef = none ∨ s.stompClientRef = none) :
    (startCall s).session = s ∧ (startCall s).thrown = none ∧
      (startCall s).trace = [.warn "⚠️ Cannot start call, connection not ready"] := by
  obtain ⟨localId, remoteId, inCall, pcRef, stompClientRef, lv, rv, pending⟩ := s
  rcases h with h | h
  · simp only at h; subst h
    exact ⟨rfl, rfl, rfl⟩
  · simp only at h; subst h
    cases pcRef <;> exact ⟨rfl, rfl, rfl⟩

/-- C10 at the session before the mount effect has run. -/
theorem C10_startCall_not_ready_witness :
    (Session.init "doctor" "patient").pcRef = none ∧
      (startCall (Session.init "doctor" "patient")).session = Session.init "doctor" "patient" ∧
      (startCall (Session.init "doctor" "patient")).thrown = none ∧
      (startCall (Session.init "doctor" "patient")).trace =
        [.warn "⚠️ Cannot start call, connection not ready"] :=
  ⟨rfl, C10_startCall_not_ready (Session.init "doctor" "patient") (Or.inl rfl)⟩

/-- C5: `endCall()` is total and idempotent.  From every session it returns normally and
leaves the session ENDED: not in a call, the transport (if there is one) closed, the local
and the remote sink cleared, and a `stop()` issued for every track of the stream that was
attached to the local sink.  A second `endCall()` leaves the session exactly as the first
one left it: it repeats `close()` on the closed transport and `setInCall(false)`, stops no
track and publishes nothing. -/
theorem C5_endCall_total_idempotent (s : Session) :
    (endCall s).thrown = none ∧
      isENDED (endCall s).session = true ∧
      (endCall s).session.inCall = false ∧
      (∀ pc, (endCall s).session.pcRef = some pc → pc.closed = true) ∧
      (∀ stream, s.localStream = some stream →
        ∀ t ∈ stream.tracks, Effect.trackStop t ∈ (endCall s).trace) ∧
      (∀ v, (endCall s).session.localVideoRef = some v → v.srcObject = none) ∧
      (∀ v, (endCall s).session.remoteVideoRef = some v → v.srcObject = none) ∧
      (endCall (endCall s).session).session = (endCall s).session ∧
      (∀ e ∈ (endCall (endCall s).session).trace,
        (e = .pc .close ∨ e = .setInCall false) ∧
          e.isTrackStop = false ∧ e.isPublish = false) := by
  obtain ⟨localId, remoteId, inCall, pcRef, stompClientRef, lv, rv, pending⟩ := s
  refine ⟨rfl, ?_, rfl, ?_, ?_, ?_, ?_, ?_, ?_⟩
  · cases pcRef <;> rfl
  · intro pc h
    cases pcRef with
    | none => simp [endCall, stopLocalStream] at h
    | some p =>
      simp only [endCall, stopLocalStream, Option.map_some', Option.some.injEq] at h
      subst h
      rfl
  · intro stream hs t ht
    simp only [Session.localStream] at hs
    simp only [endCall, stopLocalStream, hs, List.mem_append, List.mem_map]
    exact Or.inl (Or.inr ⟨t, ht, rfl⟩)
  · intro v h
    cases lv with
    | none => simp [endCall, stopLocalStream] at h
    | some w =>
      simp only [endCall, stopLocalStream, Option.map_some', Option.some.injEq] at h
      subst h
      rfl
  · intro v h
    cases rv with
    | none => simp [endCall, stopLocalStream] at h
    | some w =>
      simp only [endCall, stopLocalStream, Option.map_some', Option.some.injEq] at h
      subst h
      rfl
  · cases pcRef <;> cases lv <;> cases rv <;> rfl
  · intro e he
    have hmem : e = .pc .close ∨ e = .setInCall false := by
      cases pcRef <;> cases lv <;> simp [endCall, stopLocalStream] at he <;> simp [he]
    rcases hmem with h | h <;> subst h
    · exact ⟨Or.inl rfl, rfl, rfl⟩
    · exact ⟨Or.inr rfl, rfl, rfl⟩

/-- C5 at a session in a call with the camera on: the transport is closed, both tracks are
stopped, and a second `endCall()` changes nothing. -/
theorem C5_endCall_total_idempotent_witness :
    (endCall onCamera).trace =
        [.pc .close, .trackStop { kind := "audio", enabled := true },
          .trackStop { kind := "video", enabled := true }, .setInCall false] ∧
      isENDED (endCall onCamera).session = true ∧
      (endCall (endCall onCamera).session).session = (endCall onCamera).session :=
  ⟨rfl, (C5_endCall_total_idempotent onCamera).2.1,
    (C5_endCall_total_idempotent onCamera).2.2.2.2.2.2.2.1⟩

/-! ## The handlers, case by case -/

theorem onMessage_offer (J : JsonCodec) (s : Session) (body : String) (m : Json)
    (pc : RTCPeerConnection) (hp : J.parse body = some m)
    (ht : m.prop "type" = some (.str "OFFER")) (hpc : s.pcRef = some pc) :
    onMessage J s body =
      { session := { s with
          inCall := true,
          pending := s.pending ++
            [⟨.setRemoteDescription (m.prop "data"), .offerCreateAnswer (m.prop "senderId")⟩] },
        trace := [.pc (.setRemoteDescription (m.prop "data")), .setInCall true],
        thrown := none } := by
  cases m <;> simp [Json.prop] at ht
  simp [onMessage, hp, Json.prop, ht, isString, hpc]

theorem onMessage_answer (J : JsonCodec) (s : Session) (body : String) (m : Json)
    (pc : RTCPeerConnection) (hp : J.parse body = some m)
    (ht : m.prop "type" = some (.str "ANSWER")) (hpc : s.pcRef = some pc) :
    onMessage J s body =
      { session := { s with
          inCall := true,
          pending := s.pending ++ [⟨.setRemoteDescription (m.prop "data"), .ignore⟩] },
        trace := [.pc (.setRemoteDescription (m.prop "data")), .setInCall true],
        thrown := none } := by
  cases m <;> simp [Json.prop] at ht
  simp [onMessage, hp, Json.prop, ht, isString, hpc]

theorem onMessage_ice (J : JsonCodec) (s : Session) (body : String) (m : Json)
    (pc : RTCPeerConnection) (hp : J.parse body = some m)
    (ht : m.prop "type" = some (.str "ICE")) (hpc : s.pcRef = some pc) :
    onMessage J s body =
      { session := { s with
          pending := s.pending ++ [⟨.addIceCandidate (m.prop "data"), .ignore⟩] },
        trace := [.pc (.addIceCandidate (m.prop "data"))],
        thrown := none } := by
  cases m <;> simp [Json.prop] at ht
  simp [onMessage, hp, Json.prop, ht, isString, hpc]

theorem get?_snoc {α : Type} (l : List α) (x : α) : (l ++ [x]).get? l.length = some x := by
  simp

theorem eraseIdx_snoc {α : Type} (l : List α) (x : α) : (l ++ [x]).eraseIdx l.length = l := by
  induction l with
  | nil => rfl
  | cons a l ih => simp [ih]

/-! ## Claims on the message handler -/

/-- C9, amended: for every inbound text that `JSON.parse` rejects, and for
every text that parses to a message whose `type` is none of OFFER, ANSWER and ICE, the
handler dispatches nothing: no transport call, no publish, the session unchanged.  The
failure is not handled inside the handler: on malformed text the `SyntaxError` of
`JSON.parse` leaves the handler, on the literal `null` the `TypeError` of the property
read leaves it, and on any other unrecognised message the handler returns normally. -/
theorem C9_unrecognised_text_dropped (J : JsonCodec) (s : Session) (body : String)
    (h : J.parse body = none ∨
      ∃ m, J.parse body = some m ∧ isString (m.prop "type") "OFFER" = false ∧
        isString (m.prop "type") "ANSWER" = false ∧ isString (m.prop "type") "ICE" = false) :
    (onMessage J s body).session = s ∧ (onMessage J s body).trace = [] ∧
      (J.parse body = none → (onMessage J s body).thrown = some .SyntaxError) ∧
      (J.parse body = some .null → (onMessage J s body).thrown = some .TypeError) ∧
      (∀ m, J.parse body = some m → m ≠ .null → (onMessage J s body).thrown = none) := by
  rcases h with h | ⟨m, hp, h1, h2, h3⟩
  · simp [onMessage, h]
  · cases m <;> simp [onMessage, hp, h1, h2, h3]

/-- The amended C9 at a text that is not JSON, received by the mounted session. -/
theorem C9_unrecognised_text_dropped_witness :
    (onMessage JSON.codec (mount (Session.init "a" "b")) "hello").session =
        mount (Session.init "a" "b") ∧
      (onMessage JSON.codec (mount (Session.init "a" "b")) "hello").trace = [] ∧
      (JSON.codec.parse "hello" = none →
        (onMessage JSON.codec (mount (Session.init "a" "b")) "hello").thrown =
          some .SyntaxError) ∧
      (JSON.codec.parse "hello" = some .null →
        (onMessage JSON.codec (mount (Session.init "a" "b")) "hello").thrown =
          some .TypeError) ∧
      (∀ m, JSON.codec.parse "hello" = some m → m ≠ .null →
        (onMessage JSON.codec (mount (Session.init "a" "b")) "hello").thrown = none) :=
  C9_unrecognised_text_dropped JSON.codec (mount (Session.init "a" "b")) "hello" (Or.inl rfl)

/-- C9 as stated fails: on a text that is not JSON an exception leaves the handler. -/
theorem C9_counterexample :
    JSON.parse "hello" = none ∧
      (onMessage JSON.codec (mount (Session.init "a" "b")) "hello").thrown =
        some .SyntaxError := by
  exact ⟨rfl, rfl⟩

/-- C3: from IDLE, with the transport and the relay client initialised, `startCall()`
followed by the fulfilment of its two requests makes exactly these calls, in this order:
`createOffer()`, `setLocalDescription(offer)`, one publish to `/app/webrtc.offer` of
`JSON.stringify` of the object `{type: "OFFER", senderId: localId, recipientId: remoteId,
data: offer}`, `setInCall(true)`; it leaves the session in OFFER_SENT (in call, the offer as the local
description, no remote description) with no request outstanding. -/
theorem C3_startCall_from_idle (J : JsonCodec) (s : Session) (offer : Json)
    (hidle : isIDLE s = true) (hpc : s.pcRef.isSome = true)
    (hst : s.stompClientRef.isSome = true) :
    (run J s [.startCall, .settle 0 (.fulfilled (some offer)), .settle 0 (.fulfilled none)]).2 =
        [.pc .createOffer, .pc (.setLocalDescription (some offer)),
          .publish "/app/webrtc.offer"
            (J.stringify (.obj [("type", .str "OFFER"), ("senderId", .str s.localId),
              ("recipientId", .str s.remoteId), ("data", offer)])),
          .setInCall true] ∧
      isOFFER_SENT (run J s [.startCall, .settle 0 (.fulfilled (some offer)),
        .settle 0 (.fulfilled none)]).1 = true ∧
      (run J s [.startCall, .settle 0 (.fulfilled (some offer)),
        .settle 0 (.fulfilled none)]).1 =
        { s with
          inCall := true,
          pcRef := s.pcRef.map fun pc => { pc with localDescription := some (some offer) } } := by
  obtain ⟨localId, remoteId, inCall, pcRef, stompClientRef, lv, rv, pending⟩ := s
  cases pcRef with
  | none => simp at hpc
  | some pc =>
    cases stompClientRef with
    | none => simp at hst
    | some c =>
      obtain ⟨closed, ld, rd, cands⟩ := pc
      simp only [isIDLE, Bool.and_eq_true, Bool.not_eq_true', List.isEmpty_iff,
        Option.isNone_iff_eq_none] at hidle
      obtain ⟨⟨hin, hpend⟩, ⟨hcl, hld⟩, hrd⟩ := hidle
      subst hin hpend hcl hld hrd
      refine ⟨rfl, rfl, rfl⟩

/-- C3 at the mounted session of party `a` calling party `b`. -/
theorem C3_startCall_from_idle_witness :
    isIDLE (mount (Session.init "a" "b")) = true ∧
      (run JSON.codec (mount (Session.init "a" "b"))
        [.startCall, .settle 0 (.fulfilled (some (.str "sdp"))),
          .settle 0 (.fulfilled none)]).2 =
        [.pc .createOffer, .pc (.setLocalDescription (some (.str "sdp"))),
          .publish "/app/webrtc.offer"
            (JSON.stringify (.obj [("type", .str "OFFER"), ("senderId", .str "a"),
              ("recipientId", .str "b"), ("data", .str "sdp")])),
          .setInCall true] ∧
      isOFFER_SENT (run JSON.codec (mount (Session.init "a" "b"))
        [.startCall, .settle 0 (.fulfilled (some (.str "sdp"))),
          .settle 0 (.fulfilled none)]).1 = true :=
  ⟨rfl,
    (C3_startCall_from_idle JSON.codec (mount (Session.init "a" "b")) (.str "sdp")
      rfl rfl rfl).1,
    (C3_startCall_from_idle JSON.codec (mount (Session.init "a" "b")) (.str "sdp")
      rfl rfl rfl).2.1⟩

/-- C4: an inbound OFFER received in IDLE, the transport initialised and fulfilling each
request.  The handler makes exactly these calls, in this order:
`setRemoteDescription(msg.data)`, `setInCall(true)`, `createAnswer()`,
`setLocalDescription(answer)`, one publish to `/app/webrtc.answer` of `JSON.stringify`
of the object `{type: "ANSWER", senderId: localId, recipientId: msg.senderId, data:
answer}` (the `recipientId` property is absent where `msg.senderId` is `undefined`).  The
session ends CONNECTED (in call, `msg.data` as the remote and the answer as the local
description).  It is OFFER_RECEIVED from the receipt on, when the in-call flag is raised,
and not CONNECTED at any point before the last event: it becomes CONNECTED when the
answer, already created, handed to `setLocalDescription` and published, takes effect as
the local description. -/
theorem C4_offer_in_idle (J : JsonCodec) (s : Session) (body : String) (m answer : Json)
    (hidle : isIDLE s = true) (hpc : s.pcRef.isSome = true)
    (hp : J.parse body = some m) (ht : m.prop "type" = some (.str "OFFER")) :
    (run J s (offerServed body answer)).2 =
        [.pc (.setRemoteDescription (m.prop "data")), .setInCall true, .pc .createAnswer,
          .pc (.setLocalDescription (some answer)),
          .publish "/app/webrtc.answer"
            (J.stringify (.obj
              ([("type", .str "ANSWER"), ("senderId", .str s.localId)] ++
                (match m.prop "senderId" with
                  | some sender => [("recipientId", sender)]
                  | none => []) ++
                [("data", answer)])))] ∧
      isCONNECTED (run J s (offerServed body answer)).1 = true ∧
      (run J s (offerServed body answer)).1 =
        { s with
          inCall := true,
          pcRef := s.pcRef.map fun pc =>
            { pc with remoteDescription := some (m.prop "data"),
                      localDescription := some (some answer) } } ∧
      (∀ k, k < 4 → isCONNECTED (run J s ((offerServed body answer).take k)).1 = false) ∧
      (∀ k, 1 ≤ k → k < 4 →
        isOFFER_RECEIVED (run J s ((offerServed body answer).take k)).1 = true) ∧
      (run J s ((offerServed body answer).take 3)).2 = (run J s (offerServed body answer)).2 := by
  obtain ⟨localId, remoteId, inCall, pcRef, stompClientRef, lv, rv, pending⟩ := s
  cases pcRef with
  | none => simp at hpc
  | some pc =>
    obtain ⟨closed, ld, rd, cands⟩ := pc
    simp only [isIDLE, Bool.and_eq_true, Bool.not_eq_true', List.isEmpty_iff,
      Option.isNone_iff_eq_none] at hidle
    obtain ⟨⟨hin, hpend⟩, ⟨hcl, hld⟩, hrd⟩ := hidle
    subst hin hpend hcl hld hrd
    have h1 := onMessage_offer J
      { localId := localId, remoteId := remoteId, inCall := false,
        pcRef := some { closed := false, localDescription := none, remoteDescription := none,
                        remoteCandidates := cands },
        stompClientRef := stompClientRef, localVideoRef := lv, remoteVideoRef := rv,
        pending := [] } body m _ hp ht rfl
    refine ⟨?_, ?_, ?_, ?_, ?_, ?_⟩
    · simp only [offerServed, run, step, h1]
      generalize m.prop "senderId" = sender
      cases sender <;> rfl
    · simp only [offerServed, run, step, h1]; rfl
    · simp only [offerServed, run, step, h1]; rfl
    · intro k hk
      interval_cases k
      · rfl
      · simp only [offerServed, List.take, run, step, h1]; rfl
      · simp only [offerServed, List.take, run, step, h1]; rfl
      · simp only [offerServed, List.take, run, step, h1]; rfl
    · intro k hk1 hk
      interval_cases k
      · simp only [offerServed, List.take, run, step, h1]; rfl
      · simp only [offerServed, List.take, run, step, h1]; rfl
      · simp only [offerServed, List.take, run, step, h1]; rfl
    · simp only [offerServed, List.take, run, step, h1]; rfl

/-- C4 at the mounted session of party `a` that receives the offer of party `b`: the
answer is addressed to `b`. -/
theorem C4_offer_in_idle_witness :
    isIDLE (mount (Session.init "a" "b")) = true ∧
      (run JSON.codec (mount (Session.init "a" "b"))
        (offerServed
          (JSON.stringify (.obj [("type", .str "OFFER"), ("senderId", .str "b"),
            ("recipientId", .str "a"), ("data", .str "offer")]))
          (.str "answer"))).2 =
        [.pc (.setRemoteDescription (some (.str "offer"))), .setInCall true, .pc .createAnswer,
          .pc (.setLocalDescription (some (.str "answer"))),
          .publish "/app/webrtc.answer"
            (JSON.stringify (.obj [("type", .str "ANSWER"), ("senderId", .str "a"),
              ("recipientId", .str "b"), ("data", .str "answer")]))] ∧
      isCONNECTED (run JSON.codec (mount (Session.init "a" "b"))
        (offerServed
          (JSON.stringify (.obj [("type", .str "OFFER"), ("senderId", .str "b"),
            ("recipientId", .str "a"), ("data", .str "offer")]))
          (.str "answer"))).1 = true :=
  ⟨rfl,
    (C4_offer_in_idle JSON.codec (mount (Session.init "a" "b"))
      (JSON.stringify (.obj [("type", .str "OFFER"), ("senderId", .str "b"),
        ("recipientId", .str "a"), ("data", .str "offer")]))
      (.obj [("type", .str "OFFER"), ("senderId", .str "b"),
        ("recipientId", .str "a"), ("data", .str "offer")]) (.str "answer")
      rfl rfl rfl rfl).1,
    (C4_offer_in_idle JSON.codec (mount (Session.init "a" "b"))
      (JSON.stringify (.obj [("type", .str "OFFER"), ("senderId", .str "b"),
        ("recipientId", .str "a"), ("data", .str "offer")]))
      (.obj [("type", .str "OFFER"), ("senderId", .str "b"),
        ("recipientId", .str "a"), ("data", .str "offer")]) (.str "answer")
      rfl rfl rfl rfl).2.1⟩

/-- C2, amended: the ANSWER branch has no guard on the session state.  For
every inbound ANSWER, with the transport initialised, the handler calls
`setRemoteDescription(msg.data)`, sets the in-call flag and publishes nothing, whatever
the state.  From OFFER_SENT the session is CONNECTED, with `msg.data` as the remote
description, once the transport has fulfilled the request; from IDLE the session is in
a call afterwards, so it is no longer IDLE. -/
theorem C2_answer_unguarded (J : JsonCodec) (s : Session) (body : String) (m : Json)
    (hpc : s.pcRef.isSome = true)
    (hp : J.parse body = some m) (ht : m.prop "type" = some (.str "ANSWER")) :
    (onMessage J s body).trace =
        [.pc (.setRemoteDescription (m.prop "data")), .setInCall true] ∧
      (onMessage J s body).thrown = none ∧
      (onMessage J s body).session.inCall = true ∧
      (isOFFER_SENT s = true →
        (settle J (onMessage J s body).session s.pending.length (.fulfilled none)).trace = [] ∧
        isCONNECTED
          (settle J (onMessage J s body).session s.pending.length (.fulfilled none)).session
            = true ∧
        (settle J (onMessage J s body).session s.pending.length (.fulfilled none)).session =
          { s with pcRef := s.pcRef.map fun pc =>
              { pc with remoteDescription := some (m.prop "data") } }) ∧
      (isIDLE s = true → isIDLE (onMessage J s body).session = false) := by
  obtain ⟨localId, remoteId, inCall, pcRef, stompClientRef, lv, rv, pending⟩ := s
  cases pcRef with
  | none => simp at hpc
  | some pc =>
    have h1 := onMessage_answer J
      { localId := localId, remoteId := remoteId, inCall := inCall, pcRef := some pc,
        stompClientRef := stompClientRef, localVideoRef := lv, remoteVideoRef := rv,
        pending := pending } body m pc hp ht rfl
    rw [h1]
    refine ⟨rfl, rfl, rfl, ?_, ?_⟩
    · intro hs
      obtain ⟨closed, ld, rd, cands⟩ := pc
      simp only [isOFFER_SENT, Bool.and_eq_true, Bool.not_eq_true',
        Option.isNone_iff_eq_none, Option.isSome_iff_exists] at hs
      obtain ⟨hin, ⟨hcl, d, hld⟩, hrd⟩ := hs
      subst hin hcl hld hrd
      simp only [settle, get?_snoc, eraseIdx_snoc]
      exact ⟨rfl, rfl, rfl⟩
    · intro _
      simp [isIDLE]

/-- The amended C2 at a session in OFFER_SENT that receives the answer of the peer. -/
theorem C2_answer_unguarded_witness :
    isOFFER_SENT (run JSON.codec (mount (Session.init "a" "b"))
        [.startCall, .settle 0 (.fulfilled (some (.str "offer"))),
          .settle 0 (.fulfilled none)]).1 = true ∧
      (onMessage JSON.codec
        (run JSON.codec (mount (Session.init "a" "b"))
          [.startCall, .settle 0 (.fulfilled (some (.str "offer"))),
            .settle 0 (.fulfilled none)]).1
        (wire "ANSWER" "b" "a" (.str "answer"))).trace =
        [.pc (.setRemoteDescription (some (.str "answer"))), .setInCall true] :=
  ⟨rfl, (C2_answer_unguarded JSON.codec
    (run JSON.codec (mount (Session.init "a" "b"))
      [.startCall, .settle 0 (.fulfilled (some (.str "offer"))),
        .settle 0 (.fulfilled none)]).1
    (wire "ANSWER" "b" "a" (.str "answer"))
    (signal "ANSWER" (some (.str "b")) (some (.str "a")) (some (.str "answer")))
    rfl (by rfl) rfl).1⟩

/-- C2 as stated fails: an ANSWER received in IDLE changes the session, the in-call flag
becomes true and `setRemoteDescription` is called. -/
theorem C2_counterexample :
    isIDLE (mount (Session.init "a" "b")) = true ∧
      (mount (Session.init "a" "b")).inCall = false ∧
      (onMessage JSON.codec (mount (Session.init "a" "b"))
        (wire "ANSWER" "b" "a" (.str "answer"))).session.inCall = true ∧
      (onMessage JSON.codec (mount (Session.init "a" "b"))
        (wire "ANSWER" "b" "a" (.str "answer"))).trace =
        [.pc (.setRemoteDescription (some (.str "answer"))), .setInCall true] := by
  refine ⟨rfl, rfl, ?_, ?_⟩ <;> rfl

theorem run_ice (J : JsonCodec) (msgs : List (String × JSValue)) :
    ∀ s : Session, s.pcRef.isSome = true → (∀ p ∈ msgs, decodesIce J p.1 p.2) →
      run J s (msgs.map fun p => Event.message p.1) =
        ({ s with pending := s.pending ++
              msgs.map fun p => ⟨.addIceCandidate p.2, .ignore⟩ },
          msgs.map fun p => Effect.pc (.addIceCandidate p.2)) := by
  induction msgs with
  | nil => intro s _ _; simp [run]
  | cons p ps ih =>
    intro s hpc h
    obtain ⟨m, hp, ht, hd⟩ := h p (by simp)
    obtain ⟨pc, hpc2⟩ := Option.isSome_iff_exists.mp hpc
    have h1 := onMessage_ice J s p.1 m pc hp ht hpc2
    simp only [List.map_cons, run, step, h1]
    rw [ih _ (by simpa using hpc) (fun q hq => h q (by simp [hq]))]
    simp [hd]

/-- C1, amended: there is no candidate buffer.  For every sequence of inbound
ICE messages c1..cn, with the transport initialised, and whether or not a remote
description has been set, the handler calls `addIceCandidate` for exactly c1..cn, each
once, in arrival order, each call made when its message arrives; the session is changed
in nothing but the outstanding requests.  An OFFER or ANSWER that arrives afterwards
triggers `setRemoteDescription` and `setInCall(true)` and no `addIceCandidate`. -/
theorem C1_ice_applied_on_arrival (J : JsonCodec) (s : Session)
    (msgs : List (String × JSValue)) (hpc : s.pcRef.isSome = true)
    (hmsgs : ∀ p ∈ msgs, decodesIce J p.1 p.2) :
    (run J s (msgs.map fun p => Event.message p.1)).2 =
        msgs.map (fun p => Effect.pc (.addIceCandidate p.2)) ∧
      (run J s (msgs.map fun p => Event.message p.1)).1 =
        { s with pending := s.pending ++ msgs.map fun p => ⟨.addIceCandidate p.2, .ignore⟩ } ∧
      (∀ body m, J.parse body = some m →
        (m.prop "type" = some (.str "OFFER") ∨ m.prop "type" = some (.str "ANSWER")) →
        (onMessage J (run J s (msgs.map fun p => Event.message p.1)).1 body).trace =
          [.pc (.setRemoteDescription (m.prop "data")), .setInCall true]) := by
  rw [run_ice J msgs s hpc hmsgs]
  refine ⟨rfl, rfl, ?_⟩
  intro body m hp ht
  obtain ⟨pc, hpc2⟩ := Option.isSome_iff_exists.mp hpc
  rcases ht with ht | ht
  · exact congrArg Result.trace (onMessage_offer J
      { s with pending := s.pending ++ msgs.map fun p => ⟨.addIceCandidate p.2, .ignore⟩ }
      body m pc hp ht hpc2)
  · exact congrArg Result.trace (onMessage_answer J
      { s with pending := s.pending ++ msgs.map fun p => ⟨.addIceCandidate p.2, .ignore⟩ }
      body m pc hp ht hpc2)

/-- The amended C1 at two candidates that arrive at the mounted session before any
description. -/
theorem C1_ice_applied_on_arrival_witness :
    (run JSON.codec (mount (Session.init "a" "b"))
        (twoCandidates.map fun p => Event.message p.1)).2 =
      twoCandidates.map (fun p => Effect.pc (.addIceCandidate p.2)) :=
  (C1_ice_applied_on_arrival JSON.codec (mount (Session.init "a" "b")) twoCandidates rfl
    (by
      intro p hp
      simp only [twoCandidates, List.mem_cons, List.mem_singleton, List.not_mem_nil,
        or_false] at hp
      rcases hp with hp | hp <;> subst hp
      · exact ⟨signal "ICE" (some (.str "b")) (some (.str "a")) (some (.str "c1")),
          rfl, rfl, rfl⟩
      · exact ⟨signal "ICE" (some (.str "b")) (some (.str "a")) (some (.str "c2")),
          rfl, rfl, rfl⟩)).1

/-- C1 as stated fails: an ICE message that arrives while no remote description is set
(none was ever requested) makes the handler call `addIceCandidate` at once, and the
OFFER that follows replays nothing. -/
theorem C1_counterexample :
    ((mount (Session.init "a" "b")).pcRef.bind fun pc => pc.remoteDescription) = none ∧
      (onMessage JSON.codec (mount (Session.init "a" "b"))
        (wire "ICE" "b" "a" (.str "c1"))).trace =
        [.pc (.addIceCandidate (some (.str "c1")))] ∧
      ((onMessage JSON.codec (mount (Session.init "a" "b"))
        (wire "ICE" "b" "a" (.str "c1"))).session.pcRef.bind
          fun pc => pc.remoteDescription) = none ∧
      (run JSON.codec (mount (Session.init "a" "b"))
        [.message (wire "ICE" "b" "a" (.str "c1")),
          .message (wire "OFFER" "b" "a" (.str "offer")),
          .settle 1 (.fulfilled none)]).2 =
        [.pc (.addIceCandidate (some (.str "c1"))),
          .pc (.setRemoteDescription (some (.str "offer"))), .setInCall true,
          .pc .createAnswer] := by
  refine ⟨rfl, ?_, ?_, ?_⟩ <;> rfl

theorem onMessage_pcRef (J : JsonCodec) (s : Session) (body : String) :
    (onMessage J s body).session.pcRef = s.pcRef ∧
      ∀ e ∈ (onMessage J s body).trace, e.isPublish = false := by
  unfold onMessage
  split
  · exact ⟨rfl, by simp⟩
  · exact ⟨rfl, by simp⟩
  · split
    · split <;> simp [Effect.isPublish]
    · split
      · split <;> simp [Effect.isPublish]
      · split
        · split <;> simp [Effect.isPublish]
        · exact ⟨rfl, by simp⟩

theorem endCall_pcRef (s : Session) (hc : ∀ pc, s.pcRef = some pc → pc.closed = true) :
    (endCall s).session.pcRef = s.pcRef ∧ ∀ e ∈ (endCall s).trace, e.isPublish = false := by
  constructor
  · cases h : s.pcRef with
    | none => simp [endCall, stopLocalStream, h]
    | some pc =>
      have := hc pc h
      obtain ⟨closed, ld, rd, cands⟩ := pc
      simp only at this
      subst this
      simp [endCall, stopLocalStream, h]
  · intro e he
    simp only [endCall, stopLocalStream, List.mem_append, List.mem_singleton] at he
    rcases he with (he | he) | he
    · cases h : s.pcRef <;> simp [h] at he
      subst he; rfl
    · cases h : (s.localVideoRef.bind fun v => v.srcObject) <;> simp [h] at he
      obtain ⟨t, -, rfl⟩ := he
      rfl
    · subst he; rfl

theorem startCall_pcRef (s : Session) :
    (startCall s).session.pcRef = s.pcRef ∧ ∀ e ∈ (startCall s).trace, e.isPublish = false := by
  unfold startCall
  split <;> simp [Effect.isPublish]

theorem step_quiet (J : JsonCodec) (s : Session) (e : Event) (hq : e.quiet = true)
    (hc : ∀ pc, s.pcRef = some pc → pc.closed = true) :
    (step J s e).session.pcRef = s.pcRef ∧ ∀ x ∈ (step J s e).trace, x.isPublish = false := by
  cases e with
  | message body => exact onMessage_pcRef J s body
  | icecandidate c =>
    cases c with
    | none => simp [step, onicecandidate, truthy]
    | some c => simp [Event.quiet] at hq
  | startCall => exact startCall_pcRef s
  | endCall => exact endCall_pcRef s hc
  | callButton =>
    simp only [step, callButton]
    split
    · exact endCall_pcRef s hc
    · exact startCall_pcRef s
  | settle i reply =>
    cases reply with
    | fulfilled v => simp [Event.quiet] at hq
    | rejected =>
      simp only [step, settle]
      split <;> simp

theorem run_quiet (J : JsonCodec) (evs : List Event) : ∀ s : Session,
    (∀ e ∈ evs, e.quiet = true) → (∀ pc, s.pcRef = some pc → pc.closed = true) →
    (run J s evs).1.pcRef = s.pcRef ∧ ∀ x ∈ (run J s evs).2, x.isPublish = false := by
  induction evs with
  | nil => intro s _ _; simp [run]
  | cons e es ih =>
    intro s hq hc
    have h1 := step_quiet J s e (hq e (by simp)) hc
    have h2 := ih (step J s e).session (fun x hx => hq x (by simp [hx]))
      (by rw [h1.1]; exact hc)
    simp only [run]
    refine ⟨by rw [h2.1, h1.1], ?_⟩
    intro x hx
    rcases List.mem_append.mp hx with hx | hx
    · exact h1.2 x hx
    · exact h2.2 x hx

theorem endCall_closed (s : Session) :
    ∀ pc, (endCall s).session.pcRef = some pc → pc.closed = true := by
  intro pc h
  cases hp : s.pcRef with
  | none => simp [endCall, stopLocalStream, hp] at h
  | some p =>
    simp only [endCall, stopLocalStream, hp, Option.map_some', Option.some.injEq] at h
    subst h
    rfl

/-- C6, amended: `endCall()` closes the transport and nothing else; the
relay subscription and the handlers stay in place and are not gated on ENDED.  After
`endCall()`, for every sequence of later events in which the closed transport fulfils no
request and reports no local candidate (inbound messages of any kind, `startCall()`
requests, clicks, rejections), the engine publishes nothing and the transport record is
unchanged: it stays closed and no description or candidate takes effect.  But the session
does not stay ENDED: an inbound OFFER or ANSWER still calls `setRemoteDescription` on the
closed transport and sets the in-call flag again. -/
theorem C6_after_endCall (J : JsonCodec) (s : Session) (evs : List Event)
    (hq : ∀ e ∈ evs, e.quiet = true) :
    (∀ x ∈ (run J (endCall s).session evs).2, x.isPublish = false) ∧
      (run J (endCall s).session evs).1.pcRef = (endCall s).session.pcRef ∧
      (∀ pc, (run J (endCall s).session evs).1.pcRef = some pc → pc.closed = true) ∧
      (∀ body m, s.pcRef.isSome = true → J.parse body = some m →
        (m.prop "type" = some (.str "OFFER") ∨ m.prop "type" = some (.str "ANSWER")) →
        (onMessage J (endCall s).session body).trace =
            [.pc (.setRemoteDescription (m.prop "data")), .setInCall true] ∧
          (onMessage J (endCall s).session body).session.inCall = true ∧
          isENDED (onMessage J (endCall s).session body).session = false) := by
  have h := run_quiet J evs (endCall s).session hq (endCall_closed s)
  refine ⟨h.2, h.1, ?_, ?_⟩
  · rw [h.1]; exact endCall_closed s
  · intro body m hpc hp ht
    obtain ⟨pc, hpc2⟩ := Option.isSome_iff_exists.mp hpc
    have hpc3 : (endCall s).session.pcRef = some { pc with closed := true } := by
      simp [endCall, stopLocalStream, hpc2]
    rcases ht with ht | ht
    · rw [onMessage_offer J _ body m _ hp ht hpc3]
      exact ⟨rfl, rfl, by simp [isENDED]⟩
    · rw [onMessage_answer J _ body m _ hp ht hpc3]
      exact ⟨rfl, rfl, by simp [isENDED]⟩

/-- The amended C6 at the mounted session, ended, then `afterEnd`. -/
theorem C6_after_endCall_witness :
    (∀ e ∈ afterEnd, e.quiet = true) ∧
      (∀ x ∈ (run JSON.codec (endCall (mount (Session.init "a" "b"))).session afterEnd).2,
        x.isPublish = false) :=
  ⟨by decide, (C6_after_endCall JSON.codec (mount (Session.init "a" "b")) afterEnd
    (by decide)).1⟩

/-- C6 as stated fails: after `endCall()` an inbound ANSWER is still handled, the handler
calls `setRemoteDescription` on the closed transport and the session is in a call again. -/
theorem C6_counterexample :
    isENDED (endCall (mount (Session.init "a" "b"))).session = true ∧
      (onMessage JSON.codec (endCall (mount (Session.init "a" "b"))).session
        (wire "ANSWER" "b" "a" (.str "answer"))).trace =
        [.pc (.setRemoteDescription (some (.str "answer"))), .setInCall true] ∧
      (onMessage JSON.codec (endCall (mount (Session.init "a" "b"))).session
        (wire "ANSWER" "b" "a" (.str "answer"))).session.inCall = true ∧
      isENDED (onMessage JSON.codec (endCall (mount (Session.init "a" "b"))).session
        (wire "ANSWER" "b" "a" (.str "answer"))).session = false := by
  refine ⟨rfl, ?_, ?_, ?_⟩ <;> rfl

/-- C7, amended: the guard is the call button, not `startCall()`.  While the
in-call flag is set a click on the call button runs `endCall()`, so it creates no offer
and publishes nothing (it ends the call). -/
theorem C7_call_button_gate (s : Session) (h : s.inCall = true) :
    callButton s = endCall s ∧
      ∀ e ∈ (callButton s).trace, e.isCreateOffer = false ∧ e.isPublish = false := by
  have hb : callButton s = endCall s := by simp [callButton, h]
  refine ⟨hb, ?_⟩
  rw [hb]
  intro e he
  simp only [endCall, stopLocalStream, List.mem_append, List.mem_singleton] at he
  rcases he with (he | he) | he
  · cases hp : s.pcRef <;> simp [hp] at he
    subst he; exact ⟨rfl, rfl⟩
  · cases hl : (s.localVideoRef.bind fun v => v.srcObject) <;> simp [hl] at he
    obtain ⟨t, -, rfl⟩ := he
    exact ⟨rfl, rfl⟩
  · subst he; exact ⟨rfl, rfl⟩

/-- The amended C7 at a click in OFFER_SENT. -/
theorem C7_call_button_gate_witness :
    offerSent.inCall = true ∧ callButton offerSent = endCall offerSent :=
  ⟨rfl, (C7_call_button_gate offerSent rfl).1⟩

/-- C7 as stated fails: while an earlier `startCall()` has begun and not completed the
session is not IDLE, the in-call flag is still false, and a further click runs
`startCall()` again: a second offer is created and, with the transport fulfilling the
requests, two OFFER messages are published. -/
theorem C7_counterexample :
    isIDLE (startCall (mount (Session.init "a" "b"))).session = false ∧
      (startCall (mount (Session.init "a" "b"))).session.inCall = false ∧
      (callButton (startCall (mount (Session.init "a" "b"))).session).trace =
        [.pc .createOffer] ∧
      (run JSON.codec (mount (Session.init "a" "b"))
        [.callButton, .callButton,
          .settle 0 (.fulfilled (some (.str "offer1"))),
          .settle 0 (.fulfilled (some (.str "offer2"))),
          .settle 0 (.fulfilled none), .settle 0 (.fulfilled none)]).2 =
        [.pc .createOffer, .pc .createOffer,
          .pc (.setLocalDescription (some (.str "offer1"))),
          .pc (.setLocalDescription (some (.str "offer2"))),
          .publish "/app/webrtc.offer" (wire "OFFER" "a" "b" (.str "offer1")),
          .setInCall true,
          .publish "/app/webrtc.offer" (wire "OFFER" "a" "b" (.str "offer2")),
          .setInCall true] := by
  refine ⟨rfl, rfl, rfl, ?_⟩
  rfl

/-! ## The signaling codec -/

/-- C8: the codec is a lossless round trip.  For every message `m` whose data is a JSON
value (no object in it defines a key twice), in particular for every valid OFFER, ANSWER
or ICE message, decoding the text that the sender publishes for `m` gives back the
four-field object of `m`: the receiver reads `type`, `senderId`, `recipientId` and `data`
equal to those of `m`. -/
theorem C8_codec_round_trip (m : SignalingMessage) (hd : JSON.wellFormed m.data = true) :
    decode JSON.codec (encode JSON.codec m) =
        some (.obj [("type", .str m.type), ("senderId", .str m.senderId),
          ("recipientId", .str m.recipientId), ("data", m.data)]) ∧
      ∀ message, decode JSON.codec (encode JSON.codec m) = some message →
        message.prop "type" = some (.str m.type) ∧
        message.prop "senderId" = some (.str m.senderId) ∧
        message.prop "recipientId" = some (.str m.recipientId) ∧
        message.prop "data" = some m.data := by
  have hw : JSON.wellFormed (signal m.type (some (.str m.senderId)) (some (.str m.recipientId))
      (some m.data)) = true := by
    simp [signal, JSON.wellFormed, JSON.wellFormedMembers, JSON.hasKey, hd]
  have hrt := JSON.parse_stringify _ hw
  have hdec : decode JSON.codec (encode JSON.codec m) =
      some (.obj [("type", .str m.type), ("senderId", .str m.senderId),
        ("recipientId", .str m.recipientId), ("data", m.data)]) := by
    simp only [decode, encode, JSON.codec, hrt]
    rfl
  refine ⟨hdec, ?_⟩
  intro message hm
  rw [hdec] at hm
  cases hm
  refine ⟨?_, ?_, ?_, ?_⟩ <;> simp [Json.prop, List.lookup]

/-- C8 at an ICE message with a candidate object. -/
theorem C8_codec_round_trip_witness :
    decode JSON.codec (encode JSON.codec
        { type := "ICE", senderId := "a", recipientId := "b",
          data := .obj [("candidate", .str "candidate:1 1 udp 2122 10.0.0.1 5000 typ host"),
            ("sdpMid", .str "0"), ("sdpMLineIndex", .num 0),
            ("usernameFragment", .null)] }) =
      some (.obj [("type", .str "ICE"), ("senderId", .str "a"), ("recipientId", .str "b"),
        ("data", .obj [("candidate", .str "candidate:1 1 udp 2122 10.0.0.1 5000 typ host"),
            ("sdpMid", .str "0"), ("sdpMLineIndex", .num 0),
            ("usernameFragment", .null)])]) :=
  (C8_codec_round_trip
    { type := "ICE", senderId := "a", recipientId := "b",
      data := .obj [("candidate", .str "candidate:1 1 udp 2122 10.0.0.1 5000 typ host"),
        ("sdpMid", .str "0"), ("sdpMLineIndex", .num 0),
        ("usernameFragment", .null)] } (by decide)).1

end VideoChat
